import Mathlib

/-
Verification development for the LinguoDub AI dubbing player.

The definitions below are a shallow embedding of the client side audio
synchronization and export pipeline:
  - src/components/DubbingPlayer.tsx : decodeAudioData, playAudioForLine,
    handleTimeUpdate, togglePlay, handleSeek, handleExport and the recorder
    callbacks;
  - the speech synthesis service (generateSpeechForLine) and the per line
    generation loop (startGeneration) of the application shell.

Clock times are rationals, the JavaScript string returned by window.atob is a
list of byte values, and the map from line ids to live audio sources
(activeSourcesRef) is represented by its key set, a Finset of line ids: a
JavaScript Map holds each key at most once, so the key set is a faithful
model of the duplicate guard.  Browser primitives used by the source
(window.atob, the Int16Array constructor, MediaRecorder callbacks) are
modelled by their documented behaviour at exactly the points the source
relies on them.
-/

/-- One timed unit of transcribed and translated dialogue (interface
ScriptLine in types.ts).  audioData is the base64 encoded PCM payload;
none models a null or absent payload. -/
structure ScriptLine where
  id : String
  speakerId : String
  startTime : ℚ
  endTime : ℚ
  originalText : String
  translatedText : String
  audioData : Option String
deriving DecidableEq

/-- Value of one base64 alphabet character, as read by window.atob. -/
def base64Val (c : Char) : Option Nat :=
  if 'A' ≤ c ∧ c ≤ 'Z' then some (c.toNat - 'A'.toNat)
  else if 'a' ≤ c ∧ c ≤ 'z' then some (c.toNat - 'a'.toNat + 26)
  else if '0' ≤ c ∧ c ≤ '9' then some (c.toNat - '0'.toNat + 52)
  else if c = '+' then some 62
  else if c = '/' then some 63
  else none

/-- ASCII whitespace, removed by the forgiving base64 decode of window.atob:
tab, line feed, form feed, carriage return and space. -/
def isBase64Ws (c : Char) : Bool :=
  c.toNat == 9 || c.toNat == 10 || c.toNat == 12 || c.toNat == 13 || c.toNat == 32

/-- Remove up to two trailing padding characters, as the forgiving base64
decode does when the input length is a multiple of four. -/
def stripBase64Pad (cs : List Char) : List Char :=
  match cs.reverse with
  | '=' :: '=' :: rest => rest.reverse
  | '=' :: rest => rest.reverse
  | _ => cs

/-- Turn base64 six bit values into bytes: four values give three bytes, a
final group of three gives two bytes and a final group of two gives one. -/
def base64Groups : List Nat → List Nat
  | a :: b :: c :: d :: rest =>
    (a * 4 + b / 16) :: ((b % 16) * 16 + c / 4) :: ((c % 4) * 64 + d) :: base64Groups rest
  | [a, b, c] => [a * 4 + b / 16, (b % 16) * 16 + c / 4]
  | [a, b] => [a * 4 + b / 16]
  | _ => []

/-- Model of window.atob (the forgiving base64 decode): remove ASCII
whitespace, strip up to two trailing padding characters when the length is a
multiple of four, fail when the remaining length is 1 mod 4 or a character is
outside the base64 alphabet, and otherwise emit the decoded bytes.  The
failure result models the InvalidCharacterError thrown by atob. -/
def atob (s : String) : Option (List Nat) :=
  let ws := s.toList.filter (fun c => !isBase64Ws c)
  let cs := if ws.length % 4 = 0 then stripBase64Pad ws else ws
  if cs.length % 4 = 1 then none
  else (cs.mapM base64Val).map base64Groups

/-- The signed 16 bit little endian sample read by the Int16Array view in
decodeAudioData: low byte plus 256 times the high byte, taken modulo 2 ^ 16
and reinterpreted as a signed value. -/
def toInt16 (lo hi : Nat) : Int :=
  if lo % 256 + 256 * (hi % 256) < 32768 then (lo % 256 + 256 * (hi % 256) : Nat)
  else ((lo % 256 + 256 * (hi % 256) : Nat) : Int) - 65536

/-- The sample conversion loop of decodeAudioData in DubbingPlayer.tsx: each
consecutive byte pair is one signed 16 bit sample, normalized by 32768. -/
def pcmToSamples : List Nat → List ℚ
  | [] => []
  | [_] => []
  | lo :: hi :: rest => ((toInt16 lo hi : ℚ) / 32768) :: pcmToSamples rest

/-- Failure modes of the PCM decoder: window.atob throws on malformed base64,
the Int16Array constructor throws on a byte buffer of odd length, and
createBuffer throws NotSupportedError when asked for a buffer of zero
frames. -/
inductive DecodeError where
  | malformedBase64
  | oddByteLength
  | emptyBuffer
deriving DecidableEq

/-- decodeAudioData from DubbingPlayer.tsx: base64 decode through atob, then
view the byte buffer as little endian signed 16 bit samples and normalize
each sample to a rational in the range [-1, 1] by dividing by 32768.  The
call createBuffer(1, int16Data.length, 24000) that receives the samples
throws NotSupportedError when the frame count is zero, so a byte buffer of
length zero is an error, reached only after the odd length check of the
Int16Array view. -/
def decodeAudioData (base64Data : String) : Except DecodeError (List ℚ) :=
  match atob base64Data with
  | none => Except.error DecodeError.malformedBase64
  | some bytes =>
    if bytes.length % 2 = 0 then
      if bytes.length = 0 then Except.error DecodeError.emptyBuffer
      else Except.ok (pcmToSamples bytes)
    else Except.error DecodeError.oddByteLength

/-- True exactly when decodeAudioData succeeds on the given input. -/
def decodeOk (s : String) : Bool :=
  match decodeAudioData s with
  | Except.ok _ => true
  | Except.error _ => false

lemma pcmToSamples_length : ∀ bs : List Nat, (pcmToSamples bs).length = bs.length / 2 := by
  intro bs
  induction bs using pcmToSamples.induct with
  | case1 => simp [pcmToSamples]
  | case2 => simp [pcmToSamples]
  | case3 lo hi rest ih =>
    simp only [pcmToSamples, List.length_cons, ih]
    omega

lemma toInt16_range (lo hi : Nat) : -32768 ≤ toInt16 lo hi ∧ toInt16 lo hi ≤ 32767 := by
  unfold toInt16
  have h1 : lo % 256 < 256 := Nat.mod_lt _ (by omega)
  have h2 : hi % 256 < 256 := Nat.mod_lt _ (by omega)
  split <;> omega

lemma sample_range (lo hi : Nat) :
    -1 ≤ (toInt16 lo hi : ℚ) / 32768 ∧ (toInt16 lo hi : ℚ) / 32768 ≤ 1 := by
  obtain ⟨hl, hr⟩ := toInt16_range lo hi
  have hl' : (-32768 : ℚ) ≤ (toInt16 lo hi : ℚ) := by exact_mod_cast hl
  have hr' : (toInt16 lo hi : ℚ) ≤ 32767 := by exact_mod_cast hr
  constructor
  · rw [le_div_iff₀ (by norm_num : (0 : ℚ) < 32768)]
    linarith
  · rw [div_le_iff₀ (by norm_num : (0 : ℚ) < 32768)]
    linarith

lemma pcmToSamples_mem_range :
    ∀ (bs : List Nat), ∀ x ∈ pcmToSamples bs, -1 ≤ x ∧ x ≤ 1 := by
  intro bs
  induction bs using pcmToSamples.induct with
  | case1 => simp [pcmToSamples]
  | case2 => simp [pcmToSamples]
  | case3 lo hi rest ih =>
    intro x hx
    rcases List.mem_cons.mp hx with h | h
    · exact h ▸ sample_range lo hi
    · exact ih x h

lemma pcmToSamples_getElem? :
    ∀ (bs : List Nat) (i lo hi : Nat), bs[2 * i]? = some lo → bs[2 * i + 1]? = some hi →
      (pcmToSamples bs)[i]? = some ((toInt16 lo hi : ℚ) / 32768) := by
  intro bs
  induction bs using pcmToSamples.induct with
  | case1 =>
    intro i lo hi hlo hhi
    simp at hlo
  | case2 x =>
    intro i lo hi hlo hhi
    match i, hhi with
    | 0, hhi => simp at hhi
    | i + 1, hhi =>
      rw [show 2 * (i + 1) + 1 = 2 * i + 2 + 1 by omega] at hhi
      simp at hhi
  | case3 a b rest ih =>
    intro i lo hi hlo hhi
    match i with
    | 0 =>
      simp only [Nat.mul_zero, List.getElem?_cons_zero, Nat.zero_add,
        List.getElem?_cons_succ, List.getElem?_cons_zero] at hlo hhi
      cases hlo; cases hhi
      simp [pcmToSamples]
    | i + 1 =>
      rw [show 2 * (i + 1) = 2 * i + 1 + 1 by omega] at hlo hhi
      simp only [List.getElem?_cons_succ] at hlo hhi
      simp only [pcmToSamples, List.getElem?_cons_succ]
      exact ih i lo hi hlo hhi

/-- playAudioForLine from DubbingPlayer.tsx, acting on the key set of
activeSourcesRef: a falsy payload (null or empty) returns early, an id
already in the map returns early (the duplicate guard), a decode failure is
swallowed by the try/catch, and otherwise a fresh source is started, routed
through the mixing graph and recorded in the map under the line id. -/
def playAudioForLine (line : ScriptLine) (active : Finset String) : Finset String :=
  match line.audioData with
  | none => active
  | some d =>
    if d = "" then active
    else if line.id ∈ active then active
    else
      match decodeAudioData d with
      | Except.error _ => active
      | Except.ok _ => insert line.id active

/-- The trigger tolerance used by handleTimeUpdate: 0.3 s while exporting and
0.25 s during interactive playback. -/
def tolerance (isExporting : Bool) : ℚ :=
  if isExporting then 3 / 10 else 1 / 4

/-- The trigger test of handleTimeUpdate for one line: the time difference is
at least 0 and below the tolerance, and the player is playing or exporting. -/
def trigCond (time : ℚ) (isPlaying isExporting : Bool) (line : ScriptLine) : Bool :=
  decide (0 ≤ time - line.startTime) &&
    decide (time - line.startTime < tolerance isExporting) &&
    (isPlaying || isExporting)

/-- The forEach trigger loop of handleTimeUpdate over the whole script. -/
def tickTriggers (script : List ScriptLine) (time : ℚ) (isPlaying isExporting : Bool)
    (active : Finset String) : Finset String :=
  script.foldl
    (fun acc line =>
      if trigCond time isPlaying isExporting line then playAudioForLine line acc else acc)
    active

/-- Result of one clock tick: the subtitle line and the active key set. -/
structure TickResult where
  currentLine : Option ScriptLine
  active : Finset String
deriving DecidableEq

/-- handleTimeUpdate from DubbingPlayer.tsx: select the subtitle line as the
first script line whose inclusive [startTime, endTime] interval contains the
clock time, then run the trigger loop over the script. -/
def handleTimeUpdate (script : List ScriptLine) (time : ℚ) (isPlaying isExporting : Bool)
    (active : Finset String) : TickResult :=
  { currentLine := script.find? (fun l => decide (l.startTime ≤ time ∧ time ≤ l.endTime)),
    active := tickTriggers script time isPlaying isExporting active }

/-- Result of the play and pause toggle: the new playing flag, the set of
ids whose sources had stop called, and the new active key set. -/
structure ToggleResult where
  isPlaying : Bool
  stopped : Finset String
  active : Finset String
deriving DecidableEq

/-- togglePlay from DubbingPlayer.tsx: when the video element is paused it
resumes playback; otherwise it pauses the video, calls stop on every active
source and clears the map. -/
def togglePlay (videoPaused : Bool) (active : Finset String) : ToggleResult :=
  if videoPaused then { isPlaying := true, stopped := ∅, active := active }
  else { isPlaying := false, stopped := active, active := ∅ }

/-- Result of a seek: the new clock position, the set of ids whose sources
had stop called, and the new active key set. -/
structure SeekResult where
  currentTime : ℚ
  stopped : Finset String
  active : Finset String
deriving DecidableEq

/-- handleSeek from DubbingPlayer.tsx: move the clock, call stop on every
active source and clear the map. -/
def handleSeek (t : ℚ) (active : Finset String) : SeekResult :=
  { currentTime := t, stopped := active, active := ∅ }

/-- The onended callback installed by playAudioForLine: natural completion of
a source deletes its line id from the active map. -/
def sourceOnEnded (id : String) (active : Finset String) : Finset String :=
  active.erase id

/-- A line that playAudioForLine can actually start: payload present, not
empty, and decodable. -/
def hasPlayableAudio (line : ScriptLine) : Bool :=
  match line.audioData with
  | none => false
  | some d => if d = "" then false else decodeOk d

lemma playAudioForLine_eq (line : ScriptLine) (active : Finset String) :
    playAudioForLine line active =
      if hasPlayableAudio line = true ∧ line.id ∉ active then insert line.id active
      else active := by
  match h : line.audioData with
  | none => simp [playAudioForLine, hasPlayableAudio, h]
  | some d =>
    by_cases hd : d = ""
    · simp [playAudioForLine, hasPlayableAudio, h, hd]
    · by_cases hm : line.id ∈ active
      · simp [playAudioForLine, hasPlayableAudio, h, hd, hm]
      · match hdec : decodeAudioData d with
        | Except.error err =>
          simp [playAudioForLine, hasPlayableAudio, decodeOk, h, hd, hm, hdec]
        | Except.ok samples =>
          simp [playAudioForLine, hasPlayableAudio, decodeOk, h, hd, hm, hdec]

lemma mem_playAudioForLine (line : ScriptLine) (active : Finset String) (x : String) :
    x ∈ playAudioForLine line active ↔
      x ∈ active ∨ (x = line.id ∧ hasPlayableAudio line = true) := by
  rw [playAudioForLine_eq]
  by_cases hp : hasPlayableAudio line = true ∧ line.id ∉ active
  · simp only [if_pos hp, Finset.mem_insert]
    tauto
  · simp only [if_neg hp]
    constructor
    · tauto
    · rintro (h | ⟨rfl, hpl⟩)
      · exact h
      · by_cases hm : line.id ∈ active
        · exact hm
        · exact absurd ⟨hpl, hm⟩ hp

lemma mem_tickTriggers (time : ℚ) (p e : Bool) (x : String) :
    ∀ (script : List ScriptLine) (active : Finset String),
      x ∈ tickTriggers script time p e active ↔
        x ∈ active ∨
          ∃ l ∈ script, l.id = x ∧ trigCond time p e l = true ∧ hasPlayableAudio l = true := by
  intro script
  induction script with
  | nil => simp [tickTriggers]
  | cons l ls ih =>
    intro active
    have hstep : tickTriggers (l :: ls) time p e active =
        tickTriggers ls time p e
          (if trigCond time p e l then playAudioForLine l active else active) := by
      simp [tickTriggers]
    rw [hstep, ih]
    by_cases ht : trigCond time p e l = true
    · rw [if_pos ht, mem_playAudioForLine]
      simp only [List.mem_cons]
      constructor
      · rintro ((h | ⟨rfl, hpl⟩) | ⟨l', hl', hid, htr, hpl⟩)
        · exact Or.inl h
        · exact Or.inr ⟨l, Or.inl rfl, rfl, ht, hpl⟩
        · exact Or.inr ⟨l', Or.inr hl', hid, htr, hpl⟩
      · rintro (h | ⟨l', hl' | hl', hid, htr, hpl⟩)
        · exact Or.inl (Or.inl h)
        · exact hl' ▸ Or.inl (Or.inr ⟨hid.symm, hpl⟩)
        · exact Or.inr ⟨l', hl', hid, htr, hpl⟩
    · rw [if_neg ht]
      simp only [List.mem_cons]
      constructor
      · rintro (h | ⟨l', hl', hid, htr, hpl⟩)
        · exact Or.inl h
        · exact Or.inr ⟨l', Or.inr hl', hid, htr, hpl⟩
      · rintro (h | ⟨l', hl' | hl', hid, htr, hpl⟩)
        · exact Or.inl h
        · exact absurd (hl' ▸ htr) ht
        · exact Or.inr ⟨l', hl', hid, htr, hpl⟩

lemma eq_of_mem_of_nodup_ids {script : List ScriptLine}
    (hnodup : (script.map ScriptLine.id).Nodup) {a b : ScriptLine}
    (ha : a ∈ script) (hb : b ∈ script) (hid : a.id = b.id) : a = b :=
  List.inj_on_of_nodup_map hnodup ha hb hid

lemma find?_first {α : Type} (p : α → Bool) :
    ∀ (l : List α) (a : α), l.find? p = some a →
      p a = true ∧ ∃ pre post, l = pre ++ a :: post ∧ ∀ x ∈ pre, p x = false := by
  intro l
  induction l with
  | nil => intro a h; simp at h
  | cons x xs ih =>
    intro a h
    by_cases hx : p x = true
    · rw [List.find?_cons_of_pos _ hx] at h
      cases h
      exact ⟨hx, [], xs, rfl, by simp⟩
    · rw [List.find?_cons_of_neg _ (by simpa using hx)] at h
      obtain ⟨hpa, pre, post, hsplit, hpre⟩ := ih a h
      refine ⟨hpa, x :: pre, post, by rw [hsplit]; rfl, ?_⟩
      intro y hy
      rcases List.mem_cons.mp hy with rfl | hy
      · simpa using hx
      · exact hpre y hy

/-- Sample line whose payload is the empty string: a non null but falsy
payload, exactly what a failed synthesis request leaves behind. -/
def lineEmpty : ScriptLine :=
  { id := "line-0", speakerId := "Speaker 1", startTime := 5, endTime := 6,
    originalText := "hi", translatedText := "hola", audioData := some "" }

/-- Sample line with a decodable two byte payload. -/
def lineGood : ScriptLine :=
  { id := "line-1", speakerId := "Speaker 1", startTime := 5, endTime := 6,
    originalText := "ok", translatedText := "vale", audioData := some "AAA=" }

/-- Sample line with no payload, covering the interval [0, 1]. -/
def lineA : ScriptLine :=
  { id := "line-a", speakerId := "Speaker 1", startTime := 0, endTime := 1,
    originalText := "a", translatedText := "b", audioData := none }

/-- Sample line whose payload is malformed base64. -/
def lineBad : ScriptLine :=
  { id := "line-b", speakerId := "Speaker 1", startTime := 5, endTime := 6,
    originalText := "x", translatedText := "y", audioData := some "!" }

/-- C2 counterexample: the empty string is valid base64 whose decoded byte
buffer has even length zero, yet decodeAudioData does not return a buffer of
0 = 0 / 2 samples: createBuffer throws NotSupportedError on a zero frame
request, so the decode fails. -/
theorem C2_counterexample :
    atob "" = some [] ∧
      ([] : List Nat).length % 2 = 0 ∧
      decodeAudioData "" = Except.error DecodeError.emptyBuffer :=
  ⟨rfl, rfl, rfl⟩

/-- C2 (amended, confirmed): for every valid base64 input whose decoded byte
buffer has even, nonzero length, decodeAudioData succeeds, the sample count
equals byteLength / 2, sample i is the signed 16 bit little endian sample
read from byte pair i divided by 32768, and every sample lies in [-1, 1]. -/
theorem C2_pcm_decode_ok (s : String) (bytes : List Nat)
    (hdec : atob s = some bytes) (heven : bytes.length % 2 = 0)
    (hnz : bytes.length ≠ 0) :
    decodeAudioData s = Except.ok (pcmToSamples bytes) ∧
      (pcmToSamples bytes).length = bytes.length / 2 ∧
      (∀ i lo hi, bytes[2 * i]? = some lo → bytes[2 * i + 1]? = some hi →
        (pcmToSamples bytes)[i]? = some ((toInt16 lo hi : ℚ) / 32768)) ∧
      ∀ x ∈ pcmToSamples bytes, -1 ≤ x ∧ x ≤ 1 := by
  refine ⟨?_, pcmToSamples_length bytes,
    fun i lo hi hlo hhi => pcmToSamples_getElem? bytes i lo hi hlo hhi,
    pcmToSamples_mem_range bytes⟩
  simp [decodeAudioData, hdec, heven, hnz]

/-- Witness for C2 at the base64 input AAA=, which decodes to two zero
bytes. -/
theorem C2_pcm_decode_ok_witness :
    decodeAudioData "AAA=" = Except.ok (pcmToSamples [0, 0]) ∧
      (pcmToSamples [0, 0]).length = ([0, 0] : List Nat).length / 2 ∧
      (∀ i lo hi, ([0, 0] : List Nat)[2 * i]? = some lo →
        ([0, 0] : List Nat)[2 * i + 1]? = some hi →
        (pcmToSamples [0, 0])[i]? = some ((toInt16 lo hi : ℚ) / 32768)) ∧
      ∀ x ∈ pcmToSamples [0, 0], -1 ≤ x ∧ x ≤ 1 :=
  C2_pcm_decode_ok "AAA=" [0, 0] rfl rfl (by decide)

/-- C3 (confirmed): malformed base64 fails with the malformed base64 decode
error, an odd byte buffer fails with the odd byte length decode error (no
silent truncation or unrelated outcome), and the caller playAudioForLine
treats a failed decode as skipping that line, leaving the active map
unchanged instead of aborting. -/
theorem C3_decode_error_and_skip (s : String) :
    (atob s = none → decodeAudioData s = Except.error DecodeError.malformedBase64) ∧
      (∀ bytes, atob s = some bytes → bytes.length % 2 = 1 →
        decodeAudioData s = Except.error DecodeError.oddByteLength) ∧
      ∀ (line : ScriptLine) (active : Finset String), line.audioData = some s →
        decodeOk s = false → playAudioForLine line active = active := by
  refine ⟨fun h => by simp [decodeAudioData, h], fun bytes hb hodd => ?_, ?_⟩
  · have h2 : ¬bytes.length % 2 = 0 := by omega
    simp [decodeAudioData, hb, h2]
  · intro line active hline hdec
    by_cases hd : s = ""
    · simp [playAudioForLine, hline, hd]
    · by_cases hm : line.id ∈ active
      · simp [playAudioForLine, hline, hd, hm]
      · match hdx : decodeAudioData s with
        | Except.error err => simp [playAudioForLine, hline, hd, hm, hdx]
        | Except.ok samples => simp [decodeOk, hdx] at hdec

/-- Witness for C3: a malformed input, an input decoding to three bytes, and
a line carrying the malformed input whose trigger is skipped. -/
theorem C3_decode_error_and_skip_witness :
    decodeAudioData "!" = Except.error DecodeError.malformedBase64 ∧
      decodeAudioData "AAAA" = Except.error DecodeError.oddByteLength ∧
      playAudioForLine lineBad {"x"} = {"x"} :=
  ⟨(C3_decode_error_and_skip "!").1 rfl,
   (C3_decode_error_and_skip "AAAA").2.1 [0, 0, 0] rfl rfl,
   (C3_decode_error_and_skip "!").2.2 lineBad {"x"} rfl rfl⟩

/-- C9 (confirmed): the subtitle line selected on a tick is the first script
line whose inclusive [startTime, endTime] interval contains the clock time,
and no line is selected when no interval contains it. -/
theorem C9_subtitle_first_containing_line (script : List ScriptLine) (time : ℚ)
    (p e : Bool) (active : Finset String) :
    ((handleTimeUpdate script time p e active).currentLine = none ↔
      ∀ l ∈ script, ¬(l.startTime ≤ time ∧ time ≤ l.endTime)) ∧
      ∀ l, (handleTimeUpdate script time p e active).currentLine = some l →
        (l.startTime ≤ time ∧ time ≤ l.endTime) ∧
        ∃ pre post, script = pre ++ l :: post ∧
          ∀ x ∈ pre, ¬(x.startTime ≤ time ∧ time ≤ x.endTime) := by
  constructor
  · simp only [handleTimeUpdate]
    rw [List.find?_eq_none]
    simp
  · intro l hl
    simp only [handleTimeUpdate] at hl
    obtain ⟨hp, pre, post, hsplit, hpre⟩ := find?_first _ script l hl
    simp only [decide_eq_true_eq] at hp
    refine ⟨hp, pre, post, hsplit, fun x hx => ?_⟩
    simpa using hpre x hx

/-- Witness for C9: at clock time 5 the selected subtitle line of the two
line script is the second line, whose interval [5, 6] contains 5, and the
line before it does not contain 5. -/
theorem C9_subtitle_first_containing_line_witness :
    (lineGood.startTime ≤ (5 : ℚ) ∧ (5 : ℚ) ≤ lineGood.endTime) ∧
      ∃ pre post, [lineA, lineGood] = pre ++ lineGood :: post ∧
        ∀ x ∈ pre, ¬(x.startTime ≤ (5 : ℚ) ∧ (5 : ℚ) ≤ x.endTime) :=
  (C9_subtitle_first_containing_line [lineA, lineGood] 5 true false ∅).2 lineGood
    (by norm_num [handleTimeUpdate, List.find?, lineA, lineGood])

/-- C10 (confirmed): when the player is paused and no export is in progress,
a clock tick never starts any line audio: the active map is unchanged, at
every clock time and for every script. -/
theorem C10_no_trigger_when_paused (script : List ScriptLine) (time : ℚ)
    (active : Finset String) :
    (handleTimeUpdate script time false false active).active = active := by
  suffices h : ∀ acc : Finset String, tickTriggers script time false false acc = acc from
    h active
  induction script with
  | nil => intro acc; rfl
  | cons l ls ih =>
    intro acc
    have hstep : tickTriggers (l :: ls) time false false acc =
        tickTriggers ls time false false acc := by
      simp [tickTriggers, trigCond]
    rw [hstep]
    exact ih acc

/-- C5 (confirmed): pausing while playing stops every active source and
clears the active map, and so does a seek: no line sound survives either. -/
theorem C5_pause_seek_clear_active (active : Finset String) (t : ℚ) :
    (togglePlay false active).isPlaying = false ∧
      (togglePlay false active).stopped = active ∧
      (togglePlay false active).active = ∅ ∧
      (handleSeek t active).stopped = active ∧
      (handleSeek t active).active = ∅ := by
  simp [togglePlay, handleSeek]

/-- C1 counterexample: lineEmpty has a non null audio payload (the empty
string a failed synthesis request leaves behind), the tick at its start time
has 0 ≤ delta < tolerance, its id is not active and the player is playing,
yet no playback is triggered: the active map stays empty, so triggering is
not equivalent to the stated condition for every line with a non null
payload. -/
theorem C1_counterexample :
    lineEmpty.audioData ≠ none ∧
      0 ≤ (5 : ℚ) - lineEmpty.startTime ∧
      (5 : ℚ) - lineEmpty.startTime < tolerance false ∧
      lineEmpty.id ∉ (∅ : Finset String) ∧
      (handleTimeUpdate [lineEmpty] 5 true false ∅).active = ∅ := by
  refine ⟨by simp [lineEmpty], by norm_num [lineEmpty], by norm_num [lineEmpty, tolerance],
    by simp, ?_⟩
  norm_num [handleTimeUpdate, tickTriggers, trigCond, playAudioForLine, lineEmpty, tolerance]

/-- C1 (amended, confirmed): during playback or export, a script line whose
payload is non empty and decodes successfully is newly triggered by a clock
tick exactly when 0 ≤ delta < tolerance and its id is not yet in the active
map, with tolerance 0.25 s interactive and 0.3 s while exporting; and a
duplicate trigger attempt for an already sounding line is a no-op. -/
theorem C1_line_trigger_iff (script : List ScriptLine) (line : ScriptLine) (time : ℚ)
    (p e : Bool) (active : Finset String) (d : String)
    (hmem : line ∈ script) (hnodup : (script.map ScriptLine.id).Nodup)
    (hdata : line.audioData = some d) (hne : d ≠ "") (hok : decodeOk d = true)
    (hmode : p = true ∨ e = true) :
    ((line.id ∈ (handleTimeUpdate script time p e active).active ∧ line.id ∉ active) ↔
      (0 ≤ time - line.startTime ∧ time - line.startTime < tolerance e ∧
        line.id ∉ active)) ∧
      ∀ acc : Finset String, line.id ∈ acc → playAudioForLine line acc = acc := by
  have hpl : hasPlayableAudio line = true := by simp [hasPlayableAudio, hdata, hne, hok]
  have hchar := mem_tickTriggers time p e line.id script active
  refine ⟨?_, fun acc hacc => by simp [playAudioForLine, hdata, hne, hacc]⟩
  constructor
  · rintro ⟨hin, hout⟩
    rcases hchar.mp hin with h | ⟨l, hl, hid, htr, _⟩
    · exact absurd h hout
    · have hll : l = line := eq_of_mem_of_nodup_ids hnodup hl hmem hid
      subst hll
      simp only [trigCond, Bool.and_eq_true, decide_eq_true_eq] at htr
      exact ⟨htr.1.1, htr.1.2, hout⟩
  · rintro ⟨h1, h2, hout⟩
    have htr : trigCond time p e line = true := by
      simp only [trigCond, Bool.and_eq_true, decide_eq_true_eq, Bool.or_eq_true]
      exact ⟨⟨h1, h2⟩, by rcases hmode with h | h <;> [left; right] <;> exact h⟩
    exact ⟨hchar.mpr (Or.inr ⟨line, hmem, rfl, htr, hpl⟩), hout⟩

/-- Witness for the amended C1 at a singleton script whose line has a
decodable payload, ticked at its start time during playback. -/
theorem C1_line_trigger_iff_witness :
    (lineGood.id ∈ (handleTimeUpdate [lineGood] 5 true false ∅).active ∧
        lineGood.id ∉ (∅ : Finset String)) ↔
      (0 ≤ (5 : ℚ) - lineGood.startTime ∧
        (5 : ℚ) - lineGood.startTime < tolerance false ∧
        lineGood.id ∉ (∅ : Finset String)) :=
  (C1_line_trigger_iff [lineGood] lineGood 5 true false ∅ "AAA=" (by simp) (by simp)
    rfl (by decide) rfl (Or.inl rfl)).1

/-- Player events that move the active map during interactive playback:
clock ticks, user seeks, and natural completion of a line source. -/
inductive PlayerEvent where
  | tick (t : ℚ)
  | seek (t : ℚ)
  | ended (id : String)

/-- Effect of one event on the active map while playing and not exporting. -/
def stepEvent (script : List ScriptLine) (active : Finset String) :
    PlayerEvent → Finset String
  | PlayerEvent.tick t => (handleTimeUpdate script t true false active).active
  | PlayerEvent.seek t => (handleSeek t active).active
  | PlayerEvent.ended id => sourceOnEnded id active

/-- How many times the given line id starts sounding along a trace of
events: a trigger is a step after which the id is in the active map although
it was not in it before the step. -/
def runTriggerCount (script : List ScriptLine) (id : String) :
    Finset String → List PlayerEvent → Nat
  | _, [] => 0
  | active, e :: es =>
    (if id ∈ stepEvent script active e ∧ id ∉ active then 1 else 0) +
      runTriggerCount script id (stepEvent script active e) es

/-- C7 (confirmed): a line with playable audio is triggered exactly twice
along a trace that ticks twice inside its window (the second tick is the
suppressed duplicate), completes naturally, scrubs back before the line,
ticks once before the window while approaching, and then ticks twice inside
the window again on the second forward crossing. -/
theorem C7_retrigger_after_backward_scrub (script : List ScriptLine) (line : ScriptLine)
    (active : Finset String) (d : String) (t0 tb t1 t1' t2 t2' : ℚ)
    (hmem : line ∈ script) (hnodup : (script.map ScriptLine.id).Nodup)
    (hdata : line.audioData = some d) (hne : d ≠ "") (hok : decodeOk d = true)
    (hstart : line.id ∉ active)
    (hw1 : 0 ≤ t1 - line.startTime ∧ t1 - line.startTime < tolerance false)
    (hw1' : 0 ≤ t1' - line.startTime ∧ t1' - line.startTime < tolerance false)
    (ht0 : t0 < line.startTime) (htb : tb < line.startTime)
    (hw2 : 0 ≤ t2 - line.startTime ∧ t2 - line.startTime < tolerance false)
    (hw2' : 0 ≤ t2' - line.startTime ∧ t2' - line.startTime < tolerance false) :
    runTriggerCount script line.id active
      [PlayerEvent.tick t1, PlayerEvent.tick t1', PlayerEvent.ended line.id,
        PlayerEvent.seek t0, PlayerEvent.tick tb, PlayerEvent.tick t2,
        PlayerEvent.tick t2'] = 2 := by
  have hpl : hasPlayableAudio line = true := by simp [hasPlayableAudio, hdata, hne, hok]
  have hmemTick : ∀ (t : ℚ) (acc : Finset String),
      0 ≤ t - line.startTime → t - line.startTime < tolerance false →
      line.id ∈ tickTriggers script t true false acc := by
    intro t acc h1 h2
    refine (mem_tickTriggers t true false line.id script acc).mpr
      (Or.inr ⟨line, hmem, rfl, ?_, hpl⟩)
    simp only [trigCond, Bool.and_true, Bool.or_false, Bool.and_eq_true,
      decide_eq_true_eq]
    exact ⟨h1, h2⟩
  have hmono : ∀ (t : ℚ) (acc : Finset String), line.id ∈ acc →
      line.id ∈ tickTriggers script t true false acc := fun t acc h =>
    (mem_tickTriggers t true false line.id script acc).mpr (Or.inl h)
  have hnotTick : ∀ (t : ℚ) (acc : Finset String), t < line.startTime → line.id ∉ acc →
      line.id ∉ tickTriggers script t true false acc := by
    intro t acc hlt hnm hmem'
    rcases (mem_tickTriggers t true false line.id script acc).mp hmem' with
      h | ⟨l, hl, hid, htr, _⟩
    · exact hnm h
    · have hll : l = line := eq_of_mem_of_nodup_ids hnodup hl hmem hid
      subst hll
      simp only [trigCond, Bool.and_eq_true, decide_eq_true_eq] at htr
      linarith [htr.1.1]
  have hA1 : line.id ∈ tickTriggers script t1 true false active :=
    hmemTick t1 active hw1.1 hw1.2
  have hA2 : line.id ∈
      tickTriggers script t1' true false (tickTriggers script t1 true false active) :=
    hmono t1' _ hA1
  have hA3 : line.id ∉
      (tickTriggers script t1' true false
        (tickTriggers script t1 true false active)).erase line.id :=
    Finset.not_mem_erase _ _
  have hA5 : line.id ∉ tickTriggers script tb true false (∅ : Finset String) :=
    hnotTick tb ∅ htb (Finset.not_mem_empty _)
  have hA6 : line.id ∈
      tickTriggers script t2 true false
        (tickTriggers script tb true false (∅ : Finset String)) :=
    hmemTick t2 _ hw2.1 hw2.2
  simp only [runTriggerCount, stepEvent, handleTimeUpdate, handleSeek, sourceOnEnded]
  rw [if_pos ⟨hA1, hstart⟩, if_neg (fun h => h.2 hA1), if_neg (fun h => h.2 hA2),
    if_neg (fun h => Finset.not_mem_empty _ h.1), if_neg (fun h => hA5 h.1),
    if_pos ⟨hA6, hA5⟩, if_neg (fun h => h.2 hA6)]

/-- Witness for C7: the concrete trace over a singleton script, with the
window [5, 5.25), ticks at 5 and 5.1, completion, a scrub back to 1, an
approach tick at 2, and ticks at 5 and 5.1 again. -/
theorem C7_retrigger_after_backward_scrub_witness :
    runTriggerCount [lineGood] lineGood.id ∅
      [PlayerEvent.tick 5, PlayerEvent.tick (51 / 10), PlayerEvent.ended lineGood.id,
        PlayerEvent.seek 1, PlayerEvent.tick 2, PlayerEvent.tick 5,
        PlayerEvent.tick (51 / 10)] = 2 :=
  C7_retrigger_after_backward_scrub [lineGood] lineGood ∅ "AAA=" 1 2 5 (51 / 10) 5
    (51 / 10) (by simp) (by simp) rfl (by decide) rfl (Finset.not_mem_empty _)
    ⟨by norm_num [lineGood], by norm_num [lineGood, tolerance]⟩
    ⟨by norm_num [lineGood], by norm_num [lineGood, tolerance]⟩
    (by norm_num [lineGood]) (by norm_num [lineGood])
    ⟨by norm_num [lineGood], by norm_num [lineGood, tolerance]⟩
    ⟨by norm_num [lineGood], by norm_num [lineGood, tolerance]⟩

/-- Browser capabilities consulted by handleExport: whether the video element
has a captureStream method (in any vendor spelling) and which recorder mime
types MediaRecorder.isTypeSupported accepts. -/
structure ExportEnv where
  captureStreamSupported : Bool
  isTypeSupported : String → Bool

/-- Observable player state read and written by the export pipeline.
sinkAttachments counts the outstanding connections from the master gain node
to capture sinks; filesProduced counts triggered downloads; alerts collects
the user visible messages in order. -/
structure ExportState where
  isExporting : Bool
  isPlaying : Bool
  currentTime : ℚ
  sinkAttachments : Nat
  filesProduced : Nat
  alerts : List String
  recorderStarted : Bool

/-- The candidate recording formats of handleExport, in preference order. -/
def mimeTypes : List String :=
  ["video/webm;codecs=vp9,opus", "video/webm;codecs=vp8,opus", "video/webm"]

/-- handleExport from DubbingPlayer.tsx up to the start of recording: set the
exporting flag, connect the master gain to a fresh capture sink, return with
an alert and a disconnect when captureStream is unavailable, return with an
alert and no disconnect when no candidate mime type is supported, and
otherwise reset the clock, start the recorder and resume playback. -/
def handleExport (env : ExportEnv) (st : ExportState) : ExportState :=
  let st1 : ExportState :=
    { st with isExporting := true, sinkAttachments := st.sinkAttachments + 1 }
  if env.captureStreamSupported = false then
    { st1 with
        alerts := st1.alerts ++
          ["Video export is not supported in your browser. Please try Chrome or Edge."],
        isExporting := false,
        sinkAttachments := st1.sinkAttachments - 1 }
  else
    match mimeTypes.find? env.isTypeSupported with
    | none =>
      { st1 with
          alerts := st1.alerts ++ ["No supported recording formats found."],
          isExporting := false }
    | some _ =>
      { st1 with currentTime := 0, recorderStarted := true, isPlaying := true }

/-- The recorder onstop handler from handleExport: concatenate the chunks
into a blob, trigger the download, disconnect the capture sink and reset the
player state. -/
def recorderOnStop (st : ExportState) : ExportState :=
  { st with
      filesProduced := st.filesProduced + 1,
      sinkAttachments := st.sinkAttachments - 1,
      isExporting := false,
      isPlaying := false,
      currentTime := 0,
      recorderStarted := false }

/-- The recorder has no error handler in DubbingPlayer.tsx, so a recorder
error event leaves the modelled state untouched; per the MediaRecorder
interface the stop event still follows it, running recorderOnStop. -/
def recorderOnError (st : ExportState) : ExportState := st

/-- Export state before any export attempt. -/
def initialExportState : ExportState :=
  { isExporting := false, isPlaying := false, currentTime := 0,
    sinkAttachments := 0, filesProduced := 0, alerts := [], recorderStarted := false }

/-- Environment without stream capture support. -/
def envNoCapture : ExportEnv :=
  { captureStreamSupported := false, isTypeSupported := fun _ => false }

/-- Environment with stream capture but no supported recording format. -/
def envNoMime : ExportEnv :=
  { captureStreamSupported := true, isTypeSupported := fun _ => false }

/-- Environment with stream capture and every recording format supported. -/
def envFull : ExportEnv :=
  { captureStreamSupported := true, isTypeSupported := fun _ => true }

/-- C4 (code bug): the unsupported encoding failure path of handleExport
returns without disconnecting the capture sink it attached at the start of
the call, so a failed attempt leaves one dangling sink attachment on the
mixing graph, while the capability failure path and the finalization path do
detach theirs. -/
theorem C4_dangling_sink_on_mime_failure :
    (handleExport envNoMime initialExportState).sinkAttachments = 1 ∧
      (handleExport envNoMime initialExportState).isExporting = false ∧
      (handleExport envNoMime initialExportState).filesProduced = 0 ∧
      (handleExport envNoCapture initialExportState).sinkAttachments = 0 ∧
      (recorderOnStop (handleExport envFull initialExportState)).sinkAttachments = 0 :=
  ⟨rfl, rfl, rfl, rfl, rfl⟩

/-- C6 counterexample: a recorder error during recording has no handler, and
the stop event that follows it still runs the normal onstop handler, so the
failed attempt downloads the partially recorded file and shows no message:
one file is produced and the alert list stays empty, against the claim that
a failing attempt produces no file and informs the user. -/
theorem C6_counterexample :
    (recorderOnStop (recorderOnError (handleExport envFull initialExportState))).filesProduced
        = 1 ∧
      (recorderOnStop (recorderOnError (handleExport envFull initialExportState))).alerts
        = [] :=
  ⟨rfl, rfl⟩

/-- C6 (amended, confirmed): an export attempt that fails during preparation
behaves as claimed: when stream capture is unsupported, no file is produced,
the exporting flag is reset, the sink attachment is detached and an explicit
message is shown (the CapabilityError); when capture works but no recording
format is supported, no file is produced, the exporting flag is reset and an
explicit message is shown (the EncodingError). -/
theorem C6_export_failure_handling (env : ExportEnv) (st : ExportState) :
    (env.captureStreamSupported = false →
      (handleExport env st).filesProduced = st.filesProduced ∧
        (handleExport env st).isExporting = false ∧
        (handleExport env st).sinkAttachments = st.sinkAttachments ∧
        (handleExport env st).alerts = st.alerts ++
          ["Video export is not supported in your browser. Please try Chrome or Edge."]) ∧
      (env.captureStreamSupported = true →
        mimeTypes.find? env.isTypeSupported = none →
        (handleExport env st).filesProduced = st.filesProduced ∧
          (handleExport env st).isExporting = false ∧
          (handleExport env st).recorderStarted = st.recorderStarted ∧
          (handleExport env st).alerts = st.alerts ++
            ["No supported recording formats found."]) := by
  constructor
  · intro h
    simp [handleExport, h]
  · intro h hm
    simp [handleExport, h, hm]

/-- Witness for the amended C6 at the initial state, in an environment with
no capture support and in one with no supported recording format. -/
theorem C6_export_failure_handling_witness :
    ((handleExport envNoCapture initialExportState).filesProduced =
        initialExportState.filesProduced ∧
      (handleExport envNoCapture initialExportState).isExporting = false ∧
      (handleExport envNoCapture initialExportState).sinkAttachments =
        initialExportState.sinkAttachments ∧
      (handleExport envNoCapture initialExportState).alerts = initialExportState.alerts ++
        ["Video export is not supported in your browser. Please try Chrome or Edge."]) ∧
      ((handleExport envNoMime initialExportState).filesProduced =
          initialExportState.filesProduced ∧
        (handleExport envNoMime initialExportState).isExporting = false ∧
        (handleExport envNoMime initialExportState).recorderStarted =
          initialExportState.recorderStarted ∧
        (handleExport envNoMime initialExportState).alerts = initialExportState.alerts ++
          ["No supported recording formats found."]) :=
  ⟨(C6_export_failure_handling envNoCapture initialExportState).1 rfl,
   (C6_export_failure_handling envNoMime initialExportState).2 rfl rfl⟩

/-- Outcome of one speech synthesis call in generateSpeechForLine: audio data
returned, a failed request or a response with no audio part (both caught by
the internal try), or a client construction error thrown before the try. -/
inductive TtsResult where
  | ok (data : String)
  | requestFailed
  | clientInitFailed

/-- generateSpeechForLine from geminiService.ts, by outcome: the audio data
on success, the empty string when the request fails (the internal catch logs
and returns an empty string), and none when the call throws before the
internal try begins. -/
def generateSpeechForLine : TtsResult → Option String
  | TtsResult.ok d => some d
  | TtsResult.requestFailed => some ""
  | TtsResult.clientInitFailed => none

/-- The per line loop of startGeneration, beginning at line index i: a value
returned by generateSpeechForLine is stored in audioData, a thrown exception
is caught and the line is left unchanged, and the loop always continues with
the next line. -/
def startGeneration (tts : Nat → TtsResult) : Nat → List ScriptLine → List ScriptLine
  | _, [] => []
  | i, line :: rest =>
    (match generateSpeechForLine (tts i) with
      | some d => { line with audioData := some d }
      | none => line) :: startGeneration tts (i + 1) rest

lemma startGeneration_length (tts : Nat → TtsResult) :
    ∀ (j : Nat) (script : List ScriptLine),
      (startGeneration tts j script).length = script.length := by
  intro j script
  induction script generalizing j with
  | nil => rfl
  | cons line rest ih => simp [startGeneration, ih]

lemma startGeneration_getElem? (tts : Nat → TtsResult) :
    ∀ (script : List ScriptLine) (j i : Nat),
      (startGeneration tts j script)[i]? =
        (script[i]?).map (fun line =>
          match generateSpeechForLine (tts (j + i)) with
          | some d => { line with audioData := some d }
          | none => line) := by
  intro script
  induction script with
  | nil => intro j i; simp [startGeneration]
  | cons line rest ih =>
    intro j i
    match i with
    | 0 => simp [startGeneration]
    | i + 1 =>
      simp only [startGeneration, List.getElem?_cons_succ]
      rw [ih (j + 1) i, show j + 1 + i = j + (i + 1) from by omega]

/-- Sample line before synthesis: its payload is null. -/
def lineNull : ScriptLine :=
  { id := "line-n", speakerId := "Speaker 1", startTime := 5, endTime := 6,
    originalText := "hi", translatedText := "hola", audioData := none }

/-- C8 counterexample: when the synthesis request for a line fails, the
catch inside generateSpeechForLine returns the empty string and the
generation loop stores it, so the payload of the failed line becomes the
empty string instead of staying null. -/
theorem C8_counterexample :
    (startGeneration (fun _ => TtsResult.requestFailed) 0 [lineNull]).map
        ScriptLine.audioData = [some ""] ∧
      some "" ≠ (none : Option String) :=
  ⟨rfl, by simp⟩

/-- C8 (amended, confirmed): a failed synthesis request sets the payload of
that line to the empty string, the loop continues and processes every line,
the player skips a line with an empty payload (playAudioForLine is a no-op
on it), and the fields the subtitle overlay reads (times and translated
text) are unchanged, so the subtitle is still shown. -/
theorem C8_failed_tts_empty_payload (tts : Nat → TtsResult) (script : List ScriptLine)
    (i : Nat) (line : ScriptLine)
    (hline : script[i]? = some line) (hfail : tts i = TtsResult.requestFailed) :
    (startGeneration tts 0 script)[i]? = some { line with audioData := some "" } ∧
      (startGeneration tts 0 script).length = script.length ∧
      (∀ active : Finset String,
        playAudioForLine { line with audioData := some "" } active = active) ∧
      ({ line with audioData := some "" } : ScriptLine).startTime = line.startTime ∧
      ({ line with audioData := some "" } : ScriptLine).endTime = line.endTime ∧
      ({ line with audioData := some "" } : ScriptLine).translatedText =
        line.translatedText := by
  refine ⟨?_, startGeneration_length tts 0 script, fun active => ?_, rfl, rfl, rfl⟩
  · rw [startGeneration_getElem? tts script 0 i, Nat.zero_add, hline, hfail]
    rfl
  · simp [playAudioForLine]

/-- Witness for the amended C8: a singleton script whose only synthesis
request fails. -/
theorem C8_failed_tts_empty_payload_witness :
    (startGeneration (fun _ => TtsResult.requestFailed) 0 [lineNull])[0]? =
        some { lineNull with audioData := some "" } ∧
      (startGeneration (fun _ => TtsResult.requestFailed) 0 [lineNull]).length =
        [lineNull].length :=
  ⟨(C8_failed_tts_empty_payload (fun _ => TtsResult.requestFailed) [lineNull] 0 lineNull
      rfl rfl).1,
   (C8_failed_tts_empty_payload (fun _ => TtsResult.requestFailed) [lineNull] 0 lineNull
      rfl rfl).2.1⟩
